import Mathlib

/-!
Verification development for the TalentSync AI repository.

The frontend JavaScript (React hooks, services, components) is embedded
directly from the source files. The backend ingestion/scoring core
(`resume_format_handler.py`, the heuristic resume parser, the vector index
and the match scorer) is described by the repository's specification and
documentation but its code is not present in the repository snapshot, so
those components are modelled from the spec, as marked on each definition.
-/

namespace TalentSync

/-- Closed classification of an ingestion input source. -/
inductive SourceKind where
  | pdf
  | docx
  | linkedin
  | github
  | unknown
deriving DecidableEq, Repr

/-- Lowercases a string character by character. -/
def lowerStr (s : String) : String := String.mk (s.data.map Char.toLower)

/-- Tests whether the pattern occurs as a contiguous run inside the haystack. -/
def containsAux (pat : List Char) : List Char → Bool
  | [] => pat.isEmpty
  | c :: cs => pat.isPrefixOf (c :: cs) || containsAux pat cs

/-- Case-insensitive substring containment test on the haystack. -/
def strContains (s pat : String) : Bool := containsAux pat.data (lowerStr s).data

/-- Case-insensitive suffix test on the haystack. -/
def strEndsWith (s pat : String) : Bool := pat.data.isSuffixOf (lowerStr s).data

/-- Modelled from the spec: `ResumeFormatHandler.detect_format` from
`backend/app/utils/resume_format_handler.py` (the file is absent from the
repository snapshot; the documentation gives its detection strategy).
Rules checked in fixed priority order, first match wins: a LinkedIn
profile-path segment, then a GitHub host segment, then a `.pdf` extension,
then a `.docx`/`.doc` extension, else `unknown`. Matching is
case-insensitive. -/
def detect_format (source : String) : SourceKind :=
  if strContains source ("linkedin.com/in/") then SourceKind.linkedin
  else if strContains source ("github.com/") then SourceKind.github
  else if strEndsWith source (".pdf") then SourceKind.pdf
  else if strEndsWith source (".docx") || strEndsWith source (".doc") then SourceKind.docx
  else SourceKind.unknown

end TalentSync

namespace TalentSync

/-- C4: `detect_format` is total — every input maps to exactly one of the
five source kinds — and the patterns are applied in fixed priority order:
a LinkedIn profile-path match wins over a GitHub host match, which wins
over a `.pdf` extension, which wins over a `.docx`/`.doc` extension, and
an input matching no pattern maps to `unknown`. -/
theorem detect_format_total_and_priority :
    (∀ s : String, detect_format s = SourceKind.pdf ∨ detect_format s = SourceKind.docx ∨
      detect_format s = SourceKind.linkedin ∨ detect_format s = SourceKind.github ∨
      detect_format s = SourceKind.unknown) ∧
    (∀ s : String, strContains s ("linkedin.com/in/") = true →
      detect_format s = SourceKind.linkedin) ∧
    (∀ s : String, strContains s ("linkedin.com/in/") = false →
      strContains s ("github.com/") = true → detect_format s = SourceKind.github) ∧
    (∀ s : String, strContains s ("linkedin.com/in/") = false →
      strContains s ("github.com/") = false → strEndsWith s (".pdf") = true →
      detect_format s = SourceKind.pdf) ∧
    (∀ s : String, strContains s ("linkedin.com/in/") = false →
      strContains s ("github.com/") = false → strEndsWith s (".pdf") = false →
      (strEndsWith s (".docx") = true ∨ strEndsWith s (".doc") = true) →
      detect_format s = SourceKind.docx) ∧
    (∀ s : String, strContains s ("linkedin.com/in/") = false →
      strContains s ("github.com/") = false → strEndsWith s (".pdf") = false →
      strEndsWith s (".docx") = false → strEndsWith s (".doc") = false →
      detect_format s = SourceKind.unknown) := by
  refine ⟨?_, ?_, ?_, ?_, ?_, ?_⟩
  · intro s
    unfold detect_format
    split
    · exact Or.inr (Or.inr (Or.inl rfl))
    · split
      · exact Or.inr (Or.inr (Or.inr (Or.inl rfl)))
      · split
        · exact Or.inl rfl
        · split
          · exact Or.inr (Or.inl rfl)
          · exact Or.inr (Or.inr (Or.inr (Or.inr rfl)))
  · intro s h
    simp [detect_format, h]
  · intro s h1 h2
    simp [detect_format, h1, h2]
  · intro s h1 h2 h3
    simp [detect_format, h1, h2, h3]
  · intro s h1 h2 h3 h4
    rcases h4 with h4 | h4 <;> simp [detect_format, h1, h2, h3, h4]
  · intro s h1 h2 h3 h4 h5
    simp [detect_format, h1, h2, h3, h4, h5]

/-- Witness for C4: a reference that textually matches the LinkedIn
profile-path pattern, the GitHub host pattern and the `.pdf` extension is
classified as `linkedin`, and a plain text matching nothing is `unknown`. -/
theorem detect_format_total_and_priority_witness :
    detect_format ("https://www.linkedin.com/in/jane?ref=github.com/x.pdf") = SourceKind.linkedin ∧
    detect_format ("Jane Doe plain text") = SourceKind.unknown :=
  ⟨detect_format_total_and_priority.2.1 ("https://www.linkedin.com/in/jane?ref=github.com/x.pdf")
      (by decide),
    detect_format_total_and_priority.2.2.2.2.2 ("Jane Doe plain text")
      (by decide) (by decide) (by decide) (by decide) (by decide)⟩

end TalentSync

namespace TalentSync

/-- Splits a character list into maximal runs of non-whitespace characters;
the accumulator holds the current run in reverse. -/
def wordsAux : List Char → List Char → List String
  | [], acc => if acc.isEmpty then [] else [String.mk acc.reverse]
  | c :: cs, acc =>
    if c.isWhitespace then
      if acc.isEmpty then wordsAux cs [] else String.mk acc.reverse :: wordsAux cs []
    else wordsAux cs (c :: acc)

/-- Whitespace-separated tokens of a string. -/
def wordsOf (s : String) : List String := wordsAux s.data []

/-- Splits a character list at newline characters; the accumulator holds
the current line in reverse. -/
def linesAux : List Char → List Char → List String
  | [], acc => [String.mk acc.reverse]
  | c :: cs, acc =>
    if c = '\n' then String.mk acc.reverse :: linesAux cs []
    else linesAux cs (c :: acc)

/-- Lines of a string, split at newline characters. -/
def linesOf (s : String) : List String := linesAux s.data []

/-- Splits a character list at every occurrence of the separator. -/
def splitOnCharAux (sep : Char) : List Char → List Char → List (List Char)
  | [], acc => [acc.reverse]
  | c :: cs, acc =>
    if c = sep then acc.reverse :: splitOnCharAux sep cs []
    else splitOnCharAux sep cs (c :: acc)

/-- Splits a character list at a separator character. -/
def splitOnChar (sep : Char) (cs : List Char) : List (List Char) := splitOnCharAux sep cs []

/-- Modelled from the spec: heuristic name extraction — the first non-empty
line of reasonable length, else the literal name Unknown. -/
def firstNameLine : List String → String
  | [] => "Unknown"
  | l :: ls =>
    if (!(l.data.all Char.isWhitespace)) && l.data.length ≤ 80 then l
    else firstNameLine ls

/-- Domain part of an email: at least two dot-separated non-empty labels. -/
def emailDomainOk (domain : List Char) : Bool :=
  let parts := splitOnChar '.' domain
  decide (2 ≤ parts.length) && parts.all (fun p => !p.isEmpty)

/-- Standard email pattern: one `@` between a non-empty local part and a
dotted domain. -/
def isEmailChars (cs : List Char) : Bool :=
  match splitOnChar '@' cs with
  | [lp, domain] => (!lp.isEmpty) && emailDomainOk domain
  | _ => false

/-- Modelled from the spec: heuristic email extraction — the first token
matching a standard email pattern, else empty. -/
def extractEmail (text : String) : String :=
  match (wordsOf text).find? (fun w => isEmailChars w.data) with
  | some w => w
  | none => ""

/-- A token that looks like a phone number: at least seven digits and only
digits or common phone punctuation. -/
def isPhoneToken (w : String) : Bool :=
  decide (7 ≤ (w.data.filter Char.isDigit).length) &&
    w.data.all (fun c => c.isDigit || c = '+' || c = '-' || c = '(' || c = ')' || c = '.')

/-- Modelled from the spec: heuristic phone extraction — the first token
matching a phone pattern, else empty. -/
def extractPhone (text : String) : String :=
  match (wordsOf text).find? isPhoneToken with
  | some w => w
  | none => ""

/-- Drops trailing non-alphanumeric characters from a token. -/
def stripTrailingPunct (cs : List Char) : List Char :=
  (cs.reverse.dropWhile (fun c => !c.isAlphanum)).reverse

/-- Recognizes the token year or years, ignoring case and trailing punctuation. -/
def isYearsToken (w : String) : Bool :=
  let t := String.mk (stripTrailingPunct (lowerStr w).data)
  t = "year" || t = "years"

/-- Reads a run of decimal digits as a natural number. -/
def digitsToNat (cs : List Char) : Nat :=
  cs.foldl (fun n c => n * 10 + (c.toNat - 48)) 0

/-- A token made only of digits, as a natural number. -/
def tokenNat? (w : String) : Option Nat :=
  if (!w.data.isEmpty) && w.data.all Char.isDigit then some (digitsToNat w.data) else none

/-- Modelled from the spec: the first integer token directly before the
token year(s) in the word list. -/
def yearsScan : List String → Option Nat
  | w1 :: w2 :: rest =>
    if isYearsToken w2 then
      match tokenNat? w1 with
      | some n => some n
      | none => yearsScan (w2 :: rest)
    else yearsScan (w2 :: rest)
  | _ => none

/-- Modelled from the spec: heuristic experience extraction — the first
integer adjacent to the token year(s), else 0. -/
def extractExperienceYears (text : String) : Nat :=
  (yearsScan (wordsOf text)).getD 0

/-- Modelled from the spec: the fixed reference vocabulary of known
technical terms that the heuristic skill matcher searches for. -/
def SKILL_VOCABULARY : List String :=
  ["Python", "Java", "JavaScript", "TypeScript", "React", "Node.js", "Flask",
   "Django", "AWS", "Docker", "SQL", "GraphQL", "Machine Learning", "LangChain"]

/-- Index of the first occurrence of the pattern in the haystack, if any. -/
def firstOccurrenceAux (pat : List Char) : List Char → Option Nat
  | [] => if pat.isEmpty then some 0 else none
  | c :: cs =>
    if pat.isPrefixOf (c :: cs) then some 0
    else (firstOccurrenceAux pat cs).map (fun i => i + 1)

/-- Inserts a keyed entry into a list sorted by ascending key. -/
def insertByKey (x : Nat × String) : List (Nat × String) → List (Nat × String)
  | [] => [x]
  | y :: ys => if x.1 < y.1 then x :: y :: ys else y :: insertByKey x ys

/-- Insertion sort by ascending key. -/
def sortByKey : List (Nat × String) → List (Nat × String)
  | [] => []
  | x :: xs => insertByKey x (sortByKey xs)

/-- Modelled from the spec: heuristic skill extraction — case-insensitive
substring match of the text against the fixed vocabulary, deduplicated,
ordered by first appearance in the text. -/
def extractSkills (text : String) : List String :=
  let hay := (lowerStr text).data
  let hits := SKILL_VOCABULARY.filterMap
    (fun sk => (firstOccurrenceAux (lowerStr sk).data hay).map (fun i => (i, sk)))
  (sortByKey hits).map (fun p => p.2)

/-- Joins character lists with a separator character. -/
def joinWithChar (sep : Char) : List (List Char) → List Char
  | [] => []
  | [x] => x
  | x :: y :: xs => x ++ sep :: joinWithChar sep (y :: xs)

/-- Modelled from the spec: heuristic summary extraction — the first one to
two sentences of the text, truncated to a fixed character budget. -/
def extractSummary (text : String) : String :=
  let sentences := splitOnChar '.' text.data
  String.mk ((joinWithChar '.' (sentences.take 2)).take 300)

/-- The structured candidate record assembled by the heuristic parser. -/
structure CandidateProfile where
  name : String
  email : String
  phone : String
  skills : List String
  experience_years : Nat
  professional_summary : String
deriving DecidableEq, Repr

/-- The structuring error raised when no usable text is available. -/
inductive StructuringError where
  | StructuringRejected
deriving DecidableEq, Repr

/-- Modelled from the spec: the deterministic, dependency-free heuristic
fallback of the StructuredExtractor (the backend parser module is absent
from the repository snapshot). It rejects with `StructuringRejected`
exactly when the text is empty or whitespace-only; otherwise it assembles
a profile from the heuristic field extractors. -/
def heuristic_parse (text : String) : Except StructuringError CandidateProfile :=
  if text.data.all Char.isWhitespace then Except.error StructuringError.StructuringRejected
  else Except.ok
    { name := firstNameLine (linesOf text)
      email := extractEmail text
      phone := extractPhone text
      skills := extractSkills text
      experience_years := extractExperienceYears text
      professional_summary := extractSummary text }

end TalentSync

namespace TalentSync

/-- C5: `heuristic_parse` rejects with `StructuringRejected` exactly when
its input is empty or whitespace-only; every input containing at least one
non-whitespace character yields a profile. -/
theorem heuristic_parse_rejects_iff_whitespace (text : String) :
    (heuristic_parse text = Except.error StructuringError.StructuringRejected ↔
      text.data.all Char.isWhitespace = true) ∧
    (text.data.all Char.isWhitespace = false →
      ∃ p : CandidateProfile, heuristic_parse text = Except.ok p) := by
  constructor
  · constructor
    · intro h
      by_contra hws
      rw [Bool.not_eq_true] at hws
      simp [heuristic_parse, hws] at h
    · intro h
      simp [heuristic_parse, h]
  · intro h
    refine ⟨CandidateProfile.mk (firstNameLine (linesOf text)) (extractEmail text)
      (extractPhone text) (extractSkills text) (extractExperienceYears text)
      (extractSummary text), ?_⟩
    simp [heuristic_parse, h]

/-- Witness for C5: the empty string and a whitespace-only string both
reject, and a one-letter string yields a profile. -/
theorem heuristic_parse_rejects_iff_whitespace_witness :
    heuristic_parse ("") = Except.error StructuringError.StructuringRejected ∧
    heuristic_parse ("   ") = Except.error StructuringError.StructuringRejected ∧
    ∃ p : CandidateProfile, heuristic_parse ("a") = Except.ok p :=
  ⟨(heuristic_parse_rejects_iff_whitespace ("")).1.mpr (by decide),
    (heuristic_parse_rejects_iff_whitespace ("   ")).1.mpr (by decide),
    (heuristic_parse_rejects_iff_whitespace ("a")).2 (by decide)⟩

end TalentSync

namespace TalentSync

/-- Per-source extraction failure kinds from the error taxonomy. -/
inductive ExtractionFailure where
  | NetworkFailure
  | ParseFailure
  | RateLimited
  | NotFound
  | UnreadableDocument
  | EmptyDocument
deriving DecidableEq, Repr

/-- One submitted source together with the outcome of its text extraction.
Extraction itself performs I/O (network fetches, document parsing), so its
result is supplied as data to the orchestrator embedding. -/
structure SourceOutcome where
  raw_reference : String
  extraction : Except ExtractionFailure String

/-- The only end-to-end ingestion error: no usable text across all sources. -/
inductive IngestError where
  | NoUsableText
deriving DecidableEq, Repr

/-- The assembled ingestion response: the structured profile, the owning
tenant, the source kinds that actually contributed text, and the collected
per-source failures. -/
structure IngestResponse where
  profile : CandidateProfile
  tenant_id : String
  source_tags : List SourceKind
  failures : List ExtractionFailure
deriving Repr

/-- A source outcome is usable when extraction succeeded with text that is
not whitespace-only. -/
def usableOutcome (o : SourceOutcome) : Bool :=
  match o.extraction with
  | Except.ok t => !(t.data.all Char.isWhitespace)
  | Except.error _ => false

/-- The contribution of one source: its detected kind and its text, when
extraction succeeded with usable text. -/
def usablePart? (o : SourceOutcome) : Option (SourceKind × String) :=
  match o.extraction with
  | Except.ok t =>
    if t.data.all Char.isWhitespace then none
    else some (detect_format o.raw_reference, t)
  | Except.error _ => none

/-- All usable contributions, in input order. -/
def usableParts (sources : List SourceOutcome) : List (SourceKind × String) :=
  sources.filterMap usablePart?

/-- The per-source failures, collected in input order. -/
def failuresOf (sources : List SourceOutcome) : List ExtractionFailure :=
  sources.filterMap (fun s =>
    match s.extraction with
    | Except.error e => some e
    | Except.ok _ => none)

/-- Concatenates extracted texts in input order with a separator. -/
def combineTexts : List String → String
  | [] => ""
  | [t] => t
  | t :: t2 :: ts => t ++ "\n\n" ++ combineTexts (t2 :: ts)

/-- Modelled from the spec: `IngestionOrchestrator.ingest` (the backend
service module is absent from the repository snapshot). Each source is
classified, the usable extracted texts are concatenated in input order,
the heuristic structuring path runs once on the combined text, and the
response carries the profile, the contributing source kinds and the
collected per-source failures; zero usable text across all sources is the
only end-to-end error. -/
def ingest (sources : List SourceOutcome) (tenant_id : String) :
    Except IngestError IngestResponse :=
  match usableParts sources with
  | [] => Except.error IngestError.NoUsableText
  | u :: us =>
    match heuristic_parse (combineTexts ((u :: us).map (fun p => p.2))) with
    | Except.error _ => Except.error IngestError.NoUsableText
    | Except.ok p =>
      Except.ok
        { profile := p
          tenant_id := tenant_id
          source_tags := (u :: us).map (fun p => p.1)
          failures := failuresOf sources }

theorem strData_append (s t : String) : (s ++ t).data = s.data ++ t.data := rfl

theorem combineTexts_cons_data (t : String) (ts : List String) :
    ∃ r : List Char, (combineTexts (t :: ts)).data = t.data ++ r := by
  cases ts with
  | nil => exact ⟨[], by simp [combineTexts]⟩
  | cons t2 rest =>
    refine ⟨("\n\n").data ++ (combineTexts (t2 :: rest)).data, ?_⟩
    show ((t ++ "\n\n") ++ combineTexts (t2 :: rest)).data = _
    rw [strData_append, strData_append, List.append_assoc]

theorem combined_not_whitespace {t : String}
    (ht : t.data.all Char.isWhitespace = false) (ts : List String) :
    (combineTexts (t :: ts)).data.all Char.isWhitespace = false := by
  obtain ⟨r, hr⟩ := combineTexts_cons_data t ts
  rw [hr, List.all_append, ht]
  rfl

theorem usablePart?_eq_none (s : SourceOutcome) :
    usablePart? s = none ↔ usableOutcome s = false := by
  unfold usablePart? usableOutcome
  cases s.extraction with
  | ok t =>
    by_cases h : t.data.all Char.isWhitespace <;> simp [h]
  | error e => simp

theorem usablePart?_eq_some {o : SourceOutcome} {kt : SourceKind × String}
    (h : usablePart? o = some kt) : kt.2.data.all Char.isWhitespace = false := by
  unfold usablePart? at h
  split at h
  · split at h
    · cases h
    · cases h
      simp_all
  · cases h

theorem mem_usableParts {sources : List SourceOutcome} {kt : SourceKind × String}
    (h : kt ∈ usableParts sources) : kt.2.data.all Char.isWhitespace = false := by
  rw [usableParts, List.mem_filterMap] at h
  obtain ⟨s, _, hs⟩ := h
  exact usablePart?_eq_some hs

theorem usableParts_eq_nil_iff (sources : List SourceOutcome) :
    usableParts sources = [] ↔ sources.all (fun s => !usableOutcome s) = true := by
  rw [usableParts, List.filterMap_eq_nil_iff, List.all_eq_true]
  constructor
  · intro h s hs
    have := (usablePart?_eq_none s).mp (h s hs)
    simp [this]
  · intro h s hs
    refine (usablePart?_eq_none s).mpr ?_
    simpa using h s hs

end TalentSync

namespace TalentSync

/-- C6: `ingest` returns its end-to-end error exactly when zero of the
provided sources yield usable text; when at least one source's extraction
produced usable text, it returns a profile and the per-source failures are
collected into the response instead of aborting. -/
theorem ingest_total_failure_only (sources : List SourceOutcome) (tenant_id : String) :
    (ingest sources tenant_id = Except.error IngestError.NoUsableText ↔
      sources.all (fun s => !usableOutcome s) = true) ∧
    (sources.all (fun s => !usableOutcome s) = false →
      ∃ resp : IngestResponse, ingest sources tenant_id = Except.ok resp ∧
        resp.failures = failuresOf sources) := by
  cases hu : usableParts sources with
  | nil =>
    have hall : sources.all (fun s => !usableOutcome s) = true :=
      (usableParts_eq_nil_iff sources).mp hu
    constructor
    · unfold ingest
      rw [hu]
      simp [hall]
    · intro hfalse
      rw [hall] at hfalse
      cases hfalse
  | cons u us =>
    have humem : u ∈ usableParts sources := by
      rw [hu]
      exact List.mem_cons_self u us
    have hws : u.2.data.all Char.isWhitespace = false := mem_usableParts humem
    have hcomb : (combineTexts ((u :: us).map (fun p => p.2))).data.all Char.isWhitespace
        = false := by
      simpa using combined_not_whitespace hws (us.map (fun p => p.2))
    have hparse : heuristic_parse (combineTexts ((u :: us).map (fun p => p.2))) =
        Except.ok (CandidateProfile.mk
          (firstNameLine (linesOf (combineTexts ((u :: us).map (fun p => p.2)))))
          (extractEmail (combineTexts ((u :: us).map (fun p => p.2))))
          (extractPhone (combineTexts ((u :: us).map (fun p => p.2))))
          (extractSkills (combineTexts ((u :: us).map (fun p => p.2))))
          (extractExperienceYears (combineTexts ((u :: us).map (fun p => p.2))))
          (extractSummary (combineTexts ((u :: us).map (fun p => p.2))))) := by
      unfold heuristic_parse
      rw [hcomb]
      rfl
    have hok : ingest sources tenant_id = Except.ok
        { profile := CandidateProfile.mk
            (firstNameLine (linesOf (combineTexts ((u :: us).map (fun p => p.2)))))
            (extractEmail (combineTexts ((u :: us).map (fun p => p.2))))
            (extractPhone (combineTexts ((u :: us).map (fun p => p.2))))
            (extractSkills (combineTexts ((u :: us).map (fun p => p.2))))
            (extractExperienceYears (combineTexts ((u :: us).map (fun p => p.2))))
            (extractSummary (combineTexts ((u :: us).map (fun p => p.2))))
          tenant_id := tenant_id
          source_tags := (u :: us).map (fun p => p.1)
          failures := failuresOf sources } := by
      unfold ingest
      rw [hu]
      simp only [hparse]
    have hnotnil : sources.all (fun s => !usableOutcome s) = false := by
      by_contra hcontra
      rw [Bool.not_eq_false] at hcontra
      have := (usableParts_eq_nil_iff sources).mpr hcontra
      rw [hu] at this
      cases this
    constructor
    · rw [hok]
      constructor
      · intro h
        cases h
      · intro h
        rw [h] at hnotnil
        cases hnotnil
    · intro _
      exact ⟨_, hok, rfl⟩

/-- Witness for C6: a single failed extraction aborts with the end-to-end
error, while a failed extraction next to a usable plain-text source still
yields a profile with the failure collected into the response. -/
theorem ingest_total_failure_only_witness :
    (ingest [SourceOutcome.mk ("cv.pdf") (Except.error ExtractionFailure.EmptyDocument)]
        ("tenant-1") = Except.error IngestError.NoUsableText) ∧
    (∃ resp : IngestResponse,
      ingest [SourceOutcome.mk ("cv.pdf") (Except.error ExtractionFailure.EmptyDocument),
          SourceOutcome.mk ("note") (Except.ok ("hello"))] ("tenant-1") = Except.ok resp ∧
        resp.failures = failuresOf
          [SourceOutcome.mk ("cv.pdf") (Except.error ExtractionFailure.EmptyDocument),
            SourceOutcome.mk ("note") (Except.ok ("hello"))]) :=
  ⟨(ingest_total_failure_only
      [SourceOutcome.mk ("cv.pdf") (Except.error ExtractionFailure.EmptyDocument)]
      ("tenant-1")).1.mpr (by decide),
    (ingest_total_failure_only
      [SourceOutcome.mk ("cv.pdf") (Except.error ExtractionFailure.EmptyDocument),
        SourceOutcome.mk ("note") (Except.ok ("hello"))] ("tenant-1")).2 (by decide)⟩

/-- The plain-text source of the end-to-end heuristic scenario. -/
def janeText : String :=
  "Jane Doe\nSenior Python Engineer with 6 years building APIs. jane@x.com"

/-- C8: ingesting the single plain-text Jane Doe source with no model
provider configured (the heuristic structuring path) yields a profile with
name Jane Doe, email jane@x.com, six years of experience, Python among the
skills, and source tags equal to the single kind `unknown`. -/
theorem jane_end_to_end :
    ∃ resp : IngestResponse,
      ingest [SourceOutcome.mk janeText (Except.ok janeText)] ("tenant-1") =
        Except.ok resp ∧
      resp.profile.name = "Jane Doe" ∧
      resp.profile.email = "jane@x.com" ∧
      resp.profile.experience_years = 6 ∧
      "Python" ∈ resp.profile.skills ∧
      resp.source_tags = [SourceKind.unknown] := by
  refine ⟨_, rfl, ?_, ?_, ?_, ?_, ?_⟩ <;> decide

end TalentSync

namespace TalentSync

/-- Modelled from the spec: the VectorIndex holds one namespace per tenant;
an index maps each tenant identifier to its own list of embedding records,
most recently indexed first. -/
def VectorIndex : Type := String → List (String × List ℚ)

/-- The empty index: every tenant namespace is empty. -/
def VectorIndex.empty : VectorIndex := fun _ => []

/-- Modelled from the spec: `upsert(tenant_id, profile_id, embedding)` —
writes only into the tenant's own namespace; a re-index of the same
profile replaces its record wholesale. -/
def VectorIndex.upsert (idx : VectorIndex) (tenant_id profile_id : String)
    (embedding : List ℚ) : VectorIndex :=
  fun t =>
    if t = tenant_id then
      (profile_id, embedding) :: (idx tenant_id).filter (fun r => r.1 != profile_id)
    else idx t

/-- Ordering of scored records by descending similarity. -/
def descBySim (a b : String × ℚ) : Prop := b.2 ≤ a.2

instance : DecidableRel descBySim := fun a b => inferInstanceAs (Decidable (b.2 ≤ a.2))

/-- Modelled from the spec: `query(tenant_id, embedding, top_k)` — scores
only the records of the tenant's own namespace with the similarity metric,
sorts them by descending similarity and keeps the first `top_k`. The
similarity metric is a parameter, so every statement below holds for any
metric. -/
def VectorIndex.query (idx : VectorIndex) (sim : List ℚ → List ℚ → ℚ)
    (tenant_id : String) (embedding : List ℚ) (top_k : Nat) : List (String × ℚ) :=
  (List.insertionSort descBySim
    ((idx tenant_id).map (fun r => (r.1, sim embedding r.2)))).take top_k

/-- One recorded `upsert` call. -/
structure UpsertOp where
  tenant_id : String
  profile_id : String
  embedding : List ℚ

/-- The index obtained by replaying a sequence of `upsert` calls on the
empty index. -/
def buildIndex (ops : List UpsertOp) : VectorIndex :=
  ops.foldl (fun idx op => idx.upsert op.tenant_id op.profile_id op.embedding)
    VectorIndex.empty

theorem mem_upsert {idx : VectorIndex} {t p : String} {e : List ℚ} {A : String}
    {r : String × List ℚ} (h : r ∈ (idx.upsert t p e) A) :
    (A = t ∧ r.1 = p) ∨ r ∈ idx A := by
  unfold VectorIndex.upsert at h
  by_cases hA : A = t
  · rw [if_pos hA] at h
    rcases List.mem_cons.mp h with hr | hr
    · exact Or.inl ⟨hA, by rw [hr]⟩
    · right
      rw [hA]
      exact List.mem_of_mem_filter hr
  · rw [if_neg hA] at h
    exact Or.inr h

theorem mem_buildIndex_aux (ops : List UpsertOp) (idx0 : VectorIndex) (A : String)
    (r : String × List ℚ)
    (h : r ∈ (ops.foldl (fun idx op => idx.upsert op.tenant_id op.profile_id op.embedding)
      idx0) A) :
    r ∈ idx0 A ∨ ∃ op ∈ ops, op.tenant_id = A ∧ op.profile_id = r.1 := by
  induction ops generalizing idx0 with
  | nil => exact Or.inl h
  | cons op rest ih =>
    rw [List.foldl_cons] at h
    rcases ih (idx0.upsert op.tenant_id op.profile_id op.embedding) h with h0 | ⟨op2, hmem, hop2⟩
    · rcases mem_upsert h0 with ⟨hA, hp⟩ | h1
      · exact Or.inr ⟨op, List.mem_cons_self op rest, hA.symm, hp.symm⟩
      · exact Or.inl h1
    · exact Or.inr ⟨op2, List.mem_cons_of_mem op hmem, hop2⟩

theorem mem_buildIndex {ops : List UpsertOp} {A : String} {r : String × List ℚ}
    (h : r ∈ buildIndex ops A) :
    ∃ op ∈ ops, op.tenant_id = A ∧ op.profile_id = r.1 := by
  rcases mem_buildIndex_aux ops VectorIndex.empty A r h with h0 | h1
  · cases h0
  · exact h1

end TalentSync

namespace TalentSync

/-- C1: tenant isolation of the VectorIndex. For distinct tenants A and B
and a profile identifier that was only ever upserted under B, a query for
tenant A never returns that profile identifier, whatever the similarity
metric, query embedding and `top_k`; and the exclusion is structural — the
result of a query for tenant A depends only on tenant A's namespace. -/
theorem vectorIndex_tenant_isolation (ops : List UpsertOp) (A B p : String)
    (hAB : A ≠ B) (honly : ∀ op ∈ ops, op.profile_id = p → op.tenant_id = B)
    (sim : List ℚ → List ℚ → ℚ) (embedding : List ℚ) (top_k : Nat) :
    (p ∉ ((buildIndex ops).query sim A embedding top_k).map (fun r => r.1)) ∧
    (∀ idx idx2 : VectorIndex, idx A = idx2 A →
      idx.query sim A embedding top_k = idx2.query sim A embedding top_k) := by
  constructor
  · intro hmem
    rcases List.mem_map.mp hmem with ⟨x, hx, hxp⟩
    have hx2 : x ∈ List.insertionSort descBySim
        ((buildIndex ops A).map (fun r => (r.1, sim embedding r.2))) :=
      List.take_subset top_k _ hx
    have hx3 : x ∈ (buildIndex ops A).map (fun r => (r.1, sim embedding r.2)) :=
      (List.perm_insertionSort descBySim _).mem_iff.mp hx2
    rcases List.mem_map.mp hx3 with ⟨r, hr, hrx⟩
    obtain ⟨op, hop, hopA, hopp⟩ := mem_buildIndex hr
    have hrp : r.1 = p := by
      rw [← hxp, ← hrx]
    exact hAB (hopA ▸ honly op hop (hopp.trans hrp))
  · intro idx idx2 heq
    unfold VectorIndex.query
    rw [heq]

/-- Witness for C1: after upserting a profile under tenantB only, a query
for tenantA with an identical query vector does not return it. -/
theorem vectorIndex_tenant_isolation_witness :
    "prof-1" ∉ ((buildIndex [UpsertOp.mk ("tenantB") ("prof-1") [1, 0]]).query
      (fun _ _ => 1) ("tenantA") [1, 0] 5).map (fun r => r.1) :=
  (vectorIndex_tenant_isolation [UpsertOp.mk ("tenantB") ("prof-1") [1, 0]]
    ("tenantA") ("tenantB") ("prof-1") (by decide)
    (by
      intro op hop hp
      rcases List.mem_singleton.mp hop with rfl
      rfl)
    (fun _ _ => 1) [1, 0] 5).1

end TalentSync

namespace TalentSync

/-- The composite match result: the overall score, the per-signal
breakdown, and one reasoning line per sub-score actually used. -/
structure MatchResult where
  overall_score : ℚ
  breakdown : List (String × ℚ)
  reasoning : List String

/-- Modelled from the spec: the skills sub-score — the size of the
intersection between the profile's skills and the skills mentioned in the
job description, normalized by the number of job-description skills, and 0
when the job description mentions none. -/
def skills_score (profile_skills : List String) (jd : String) : ℚ :=
  if (extractSkills jd).isEmpty then 0
  else (((extractSkills jd).filter
      (fun sk => (profile_skills.map lowerStr).contains (lowerStr sk))).length : ℚ) /
    (((extractSkills jd).length : ℚ))

/-- Modelled from the spec: the experience sub-score — a linear ramp of
`experience_years` against the target inferred from the job description,
capped at 1 and not penalized for exceeding it; with no stated target the
requirement is met. -/
def experience_score (years : Nat) (jd : String) : ℚ :=
  if extractExperienceYears jd = 0 then 1
  else min 1 ((years : ℚ) / ((extractExperienceYears jd : ℚ)))

/-- Modelled from the spec: the summary sub-score — normalized token-set
overlap between the professional summary and the job description text. -/
def summaryTokens (s : String) : List String := (wordsOf (lowerStr s)).dedup

/-- The shared tokens of two texts, in first-text order. -/
def interTokens (a b : String) : List String :=
  (summaryTokens a).filter (fun w => (summaryTokens b).contains w)

/-- The union of the token sets of two texts. -/
def unionTokens (a b : String) : List String :=
  summaryTokens a ++ (summaryTokens b).filter (fun w => !(summaryTokens a).contains w)

def summary_similarity (summary jd : String) : ℚ :=
  if (unionTokens summary jd).isEmpty then 0
  else ((interTokens summary jd).length : ℚ) / (((unionTokens summary jd).length : ℚ))

/-- Clamps a similarity value into the unit interval. -/
def clamp01 (x : ℚ) : ℚ := max 0 (min 1 x)

/-- Modelled from the spec: the breakdown mapping of `MatchScorer.score` —
the three provider-independent sub-scores, plus the clamped semantic
sub-score only when the embedding provider supplied one; when the provider
is unavailable the entry is omitted rather than recorded as zero. -/
def breakdownOf (profile : CandidateProfile) (jd : String) (semantic : Option ℚ) :
    List (String × ℚ) :=
  [("skills_score", skills_score profile.skills jd),
    ("experience_score", experience_score profile.experience_years jd),
    ("summary_similarity", summary_similarity profile.professional_summary jd)] ++
  (match semantic with
    | some x => [("semantic_score", clamp01 x)]
    | none => [])

/-- Modelled from the spec: `MatchScorer.score` — the overall score is the
equally-weighted average of whichever sub-scores are available, and the
reasoning lists one line per sub-score actually used. -/
def score (profile : CandidateProfile) (jd : String) (semantic : Option ℚ) : MatchResult :=
  { overall_score :=
      ((breakdownOf profile jd semantic).map (fun p => p.2)).sum /
        (((breakdownOf profile jd semantic).map (fun p => p.2)).length : ℚ)
    breakdown := breakdownOf profile jd semantic
    reasoning := (breakdownOf profile jd semantic).map (fun p => "signal used: " ++ p.1) }

theorem ratio_nonneg (a b : Nat) : 0 ≤ (a : ℚ) / (b : ℚ) := by positivity

theorem ratio_le_one {a b : Nat} (h : a ≤ b) (hb : 0 < b) : (a : ℚ) / (b : ℚ) ≤ 1 := by
  rw [div_le_one (by exact_mod_cast hb)]
  exact_mod_cast h

theorem length_pos_of_not_isEmpty {α : Type} {l : List α} (h : ¬(l.isEmpty = true)) :
    0 < l.length := by
  cases l with
  | nil => exact absurd rfl h
  | cons a t => simp

theorem skills_score_unit (profile_skills : List String) (jd : String) :
    0 ≤ skills_score profile_skills jd ∧ skills_score profile_skills jd ≤ 1 := by
  unfold skills_score
  split
  · norm_num
  · next hne =>
    exact ⟨ratio_nonneg _ _,
      ratio_le_one (List.length_filter_le _ _) (length_pos_of_not_isEmpty hne)⟩

theorem experience_score_unit (years : Nat) (jd : String) :
    0 ≤ experience_score years jd ∧ experience_score years jd ≤ 1 := by
  unfold experience_score
  split
  · norm_num
  · exact ⟨le_min (by norm_num) (ratio_nonneg _ _), min_le_left _ _⟩

theorem summary_similarity_unit (summary jd : String) :
    0 ≤ summary_similarity summary jd ∧ summary_similarity summary jd ≤ 1 := by
  unfold summary_similarity
  split
  · norm_num
  · next hne =>
    refine ⟨ratio_nonneg _ _, ratio_le_one ?_ (length_pos_of_not_isEmpty hne)⟩
    show (interTokens summary jd).length ≤ (unionTokens summary jd).length
    calc (interTokens summary jd).length
        ≤ (summaryTokens summary).length := List.length_filter_le _ _
      _ ≤ (unionTokens summary jd).length := by
          unfold unionTokens
          rw [List.length_append]
          exact Nat.le_add_right _ _

theorem clamp01_unit (x : ℚ) : 0 ≤ clamp01 x ∧ clamp01 x ≤ 1 := by
  unfold clamp01
  exact ⟨le_max_left _ _, max_le (by norm_num) (min_le_left _ _)⟩

theorem avg_mem_unit (l : List ℚ) (hne : l ≠ []) (h : ∀ x ∈ l, 0 ≤ x ∧ x ≤ 1) :
    0 ≤ l.sum / (l.length : ℚ) ∧ l.sum / (l.length : ℚ) ≤ 1 := by
  have hlen : 0 < (l.length : ℚ) := by
    have hp : 0 < l.length := List.length_pos.mpr hne
    exact_mod_cast hp
  have hsum0 : 0 ≤ l.sum := List.sum_nonneg (fun x hx => (h x hx).1)
  have hsum1 : l.sum ≤ (l.length : ℚ) := by
    have hb := List.sum_le_card_nsmul l 1 (fun x hx => (h x hx).2)
    simpa using hb
  exact ⟨by positivity, by rw [div_le_one hlen]; exact hsum1⟩

theorem breakdownOf_vals_unit (profile : CandidateProfile) (jd : String)
    (semantic : Option ℚ) :
    ∀ pr ∈ breakdownOf profile jd semantic, 0 ≤ pr.2 ∧ pr.2 ≤ 1 := by
  intro pr hpr
  unfold breakdownOf at hpr
  rcases List.mem_append.mp hpr with h | h
  · rcases List.mem_cons.mp h with h | h
    · rw [h]
      exact skills_score_unit profile.skills jd
    · rcases List.mem_cons.mp h with h | h
      · rw [h]
        exact experience_score_unit profile.experience_years jd
      · rcases List.mem_cons.mp h with h | h
        · rw [h]
          exact summary_similarity_unit profile.professional_summary jd
        · cases h
  · cases semantic with
    | none => cases h
    | some x =>
      rcases List.mem_cons.mp h with h | h
      · rw [h]
        exact clamp01_unit x
      · cases h

end TalentSync

namespace TalentSync

/-- C3: for every candidate profile and job description pair — including a
profile with an empty skill set and zero experience years — `score`
returns a result whose overall score and every breakdown value lie in the
closed unit interval. -/
theorem match_scores_in_unit_interval (profile : CandidateProfile) (jd : String)
    (semantic : Option ℚ) :
    (0 ≤ (score profile jd semantic).overall_score ∧
      (score profile jd semantic).overall_score ≤ 1) ∧
    (∀ pr ∈ (score profile jd semantic).breakdown, 0 ≤ pr.2 ∧ pr.2 ≤ 1) := by
  have hvals := breakdownOf_vals_unit profile jd semantic
  constructor
  · have hne : (breakdownOf profile jd semantic).map (fun p => p.2) ≠ [] := by
      unfold breakdownOf
      cases semantic <;> simp
    refine avg_mem_unit _ hne ?_
    intro x hx
    rcases List.mem_map.mp hx with ⟨pr, hpr, hx2⟩
    rw [← hx2]
    exact hvals pr hpr
  · exact hvals

/-- Witness for C3: the empty-skills, zero-experience profile against a
job description naming skills and a target. -/
theorem match_scores_in_unit_interval_witness :
    0 ≤ (score (CandidateProfile.mk ("Unknown") ("") ("") [] 0 (""))
        ("Senior Python engineer, 3 years required") none).overall_score ∧
    (score (CandidateProfile.mk ("Unknown") ("") ("") [] 0 (""))
        ("Senior Python engineer, 3 years required") none).overall_score ≤ 1 :=
  ⟨(match_scores_in_unit_interval (CandidateProfile.mk ("Unknown") ("") ("") [] 0 (""))
      ("Senior Python engineer, 3 years required") none).1.1,
    (match_scores_in_unit_interval (CandidateProfile.mk ("Unknown") ("") ("") [] 0 (""))
      ("Senior Python engineer, 3 years required") none).1.2⟩

/-- C7: when the embedding provider is unavailable, the semantic sub-score
is omitted from the breakdown rather than recorded as zero, and the
overall score is the weighted average of the remaining three sub-scores
with equal weights one third each, which sum to 1 over that subset. -/
theorem semantic_omitted_when_unavailable (profile : CandidateProfile) (jd : String) :
    ("semantic_score" ∉ (score profile jd none).breakdown.map (fun p => p.1)) ∧
    (score profile jd none).breakdown =
      [("skills_score", skills_score profile.skills jd),
        ("experience_score", experience_score profile.experience_years jd),
        ("summary_similarity", summary_similarity profile.professional_summary jd)] ∧
    (score profile jd none).overall_score =
      (1 / 3) * skills_score profile.skills jd +
        (1 / 3) * experience_score profile.experience_years jd +
        (1 / 3) * summary_similarity profile.professional_summary jd ∧
    ((1 : ℚ) / 3 + 1 / 3 + 1 / 3 = 1) := by
  refine ⟨?_, ?_, ?_, by norm_num⟩
  · simp [score, breakdownOf]
  · simp [score, breakdownOf]
  · simp [score, breakdownOf]
    ring

/-- Witness for C7: a concrete profile and job description scored with no
embedding provider. -/
theorem semantic_omitted_when_unavailable_witness :
    "semantic_score" ∉ (score (CandidateProfile.mk ("Jane Doe") ("") ("")
      [("Python" : String)] 6 ("builds APIs")) ("Python engineer, 3 years") none).breakdown.map
      (fun p => p.1) :=
  (semantic_omitted_when_unavailable (CandidateProfile.mk ("Jane Doe") ("") ("")
    [("Python" : String)] 6 ("builds APIs")) ("Python engineer, 3 years")).1

end TalentSync

namespace TalentSync

/-- The argument object of `aiService.queryAssistant` from
`frontend/src/services/aiService.js`; an omitted `recruiterId` or `topK`
property is `none`, matching a JavaScript destructuring default. -/
structure QueryAssistantArgs where
  query : String
  recruiterId : Option String
  topK : Option Nat

/-- The JSON body posted to the assistant endpoint. -/
structure AssistantRequestBody where
  query : String
  recruiter_id : String
  top_k : Nat
deriving DecidableEq, Repr

/-- Embedded from `aiService.queryAssistant`: the destructuring defaults
`recruiterId = 'default'` and `topK = 5` fill the request body when the
caller omits them. -/
def queryAssistantBody (args : QueryAssistantArgs) : AssistantRequestBody :=
  { query := args.query
    recruiter_id := args.recruiterId.getD ("default")
    top_k := args.topK.getD 5 }

/-- Embedded from the `AIChat` component: the recruiter identifier it
sends with every assistant query is the constant string default. -/
def recruiterIdOfAIChat : String := "default"

/-- Embedded from the documented signature of
`ResumeService.process_raw_text` (`recruiter_id: str = 'default'`): the
default recruiter identifier of the backend raw-text ingestion entry. -/
def processRawTextDefaultRecruiterId : String := "default"

end TalentSync

namespace TalentSync

/-- Counterexample to C2: a queryAssistant call that supplies no recruiter
identifier still goes through, with the process-wide default tenant value
default filled into the request body; the AIChat component and the
documented `process_raw_text` signature carry the same global default. -/
theorem default_tenant_counterexample :
    (queryAssistantBody (QueryAssistantArgs.mk ("find python devs") none none)).recruiter_id
      = "default" ∧
    recruiterIdOfAIChat = "default" ∧
    processRawTextDefaultRecruiterId = "default" :=
  ⟨rfl, rfl, rfl⟩

/-- C2 (amended): a process-wide default tenant identifier exists — every
tenant-scoped call that omits the recruiter identifier falls back to the
global value default (`aiService.queryAssistant`, the `AIChat` component
and `process_raw_text` all carry it); an explicitly supplied identifier is
used unchanged. -/
theorem default_tenant_fallback (args : QueryAssistantArgs) :
    (args.recruiterId = none → (queryAssistantBody args).recruiter_id = "default") ∧
    (∀ rid : String, args.recruiterId = some rid →
      (queryAssistantBody args).recruiter_id = rid) ∧
    recruiterIdOfAIChat = "default" ∧
    processRawTextDefaultRecruiterId = "default" := by
  refine ⟨?_, ?_, rfl, rfl⟩
  · intro h
    simp [queryAssistantBody, h]
  · intro rid h
    simp [queryAssistantBody, h]

/-- Witness for C2 (amended): the fallback at a concrete omitted argument
and the pass-through at a concrete supplied argument. -/
theorem default_tenant_fallback_witness :
    (queryAssistantBody (QueryAssistantArgs.mk ("q") none none)).recruiter_id = "default" ∧
    (queryAssistantBody (QueryAssistantArgs.mk ("q") (some ("rec-123")) none)).recruiter_id
      = "rec-123" :=
  ⟨(default_tenant_fallback (QueryAssistantArgs.mk ("q") none none)).1 rfl,
    (default_tenant_fallback (QueryAssistantArgs.mk ("q") (some ("rec-123")) none)).2.1
      ("rec-123") rfl⟩

end TalentSync

namespace TalentSync

/-- The state held by the `useResumeUpload` hook from
`frontend/src/hooks/useResumeUpload.js`. -/
structure ResumeUploadState where
  selectedFiles : List String
  loading : Bool
  progress : Nat
  error : Option String
  results : Option String
deriving DecidableEq, Repr

/-- Embedded from `uploadResumes` in the hook: with no files selected it
sets the error message and returns before issuing any request; otherwise
it runs the upload, whose outcome is supplied as data, and updates the
state as the hook does in its try/catch/finally. The boolean reports
whether an upload request was issued. -/
def uploadResumes (apiResult : Except String String) (s : ResumeUploadState) :
    ResumeUploadState × Bool :=
  if s.selectedFiles.length = 0 then
    ({ s with error := some "Please select files to upload" }, false)
  else
    match apiResult with
    | Except.ok resp => (ResumeUploadState.mk [] false 100 none (some resp), true)
    | Except.error msg =>
      ({ s with loading := false, progress := 0, error := some msg }, true)

end TalentSync

namespace TalentSync

/-- C9: calling `uploadResumes` while the selected-files list is empty
sets the error state to the fixed message and returns without issuing any
upload request, leaving the loading flag false and the progress and
results state unchanged. -/
theorem uploadResumes_empty_selection (apiResult : Except String String)
    (s : ResumeUploadState) (hfiles : s.selectedFiles = [])
    (hload : s.loading = false) :
    (uploadResumes apiResult s).1.error = some "Please select files to upload" ∧
    (uploadResumes apiResult s).2 = false ∧
    (uploadResumes apiResult s).1.loading = false ∧
    (uploadResumes apiResult s).1.progress = s.progress ∧
    (uploadResumes apiResult s).1.results = s.results := by
  have hlen : s.selectedFiles.length = 0 := by rw [hfiles]; rfl
  unfold uploadResumes
  rw [if_pos hlen]
  exact ⟨rfl, rfl, hload, rfl, rfl⟩

/-- Witness for C9: the initial hook state with no files selected. -/
theorem uploadResumes_empty_selection_witness :
    (uploadResumes (Except.ok ("resp"))
        (ResumeUploadState.mk [] false 0 none none)).1.error
      = some "Please select files to upload" ∧
    (uploadResumes (Except.ok ("resp"))
        (ResumeUploadState.mk [] false 0 none none)).2 = false :=
  ⟨(uploadResumes_empty_selection (Except.ok ("resp"))
      (ResumeUploadState.mk [] false 0 none none) rfl rfl).1,
    (uploadResumes_empty_selection (Except.ok ("resp"))
      (ResumeUploadState.mk [] false 0 none none) rfl rfl).2.1⟩

/-- Embedded from `toggleCompare` in the `CandidateSearch` page: a selected
id is deselected; with two ids already selected, a new id evicts the
earlier of the two; otherwise the id is appended. -/
def toggleCompare (candidateId : Nat) (prev : List Nat) : List Nat :=
  if prev.contains candidateId then prev.filter (fun i => i != candidateId)
  else
    match prev with
    | _ :: b :: _ => [b, candidateId]
    | _ => prev ++ [candidateId]

/-- Replays a sequence of toggle calls from the empty selection. -/
def replayToggles (ops : List Nat) : List Nat :=
  ops.foldl (fun s c => toggleCompare c s) []

theorem toggleCompare_preserves (c : Nat) (s : List Nat) (h : s.length ≤ 2) :
    (toggleCompare c s).length ≤ 2 := by
  unfold toggleCompare
  split
  · exact le_trans (List.length_filter_le _ _) h
  · match s with
    | [] => simp
    | [a] => simp
    | a :: b :: rest => simp

theorem replayToggles_aux (ops : List Nat) (s : List Nat) (h : s.length ≤ 2) :
    (ops.foldl (fun t c => toggleCompare c t) s).length ≤ 2 := by
  induction ops generalizing s with
  | nil => exact h
  | cons c rest ih =>
    rw [List.foldl_cons]
    exact ih (toggleCompare c s) (toggleCompare_preserves c s h)

end TalentSync

namespace TalentSync

/-- C10: after every sequence of `toggleCompare` calls starting from the
empty selection the compare list holds at most two ids, and a third
distinct selection evicts the earlier of the two currently selected ids. -/
theorem compare_selection_at_most_two :
    (∀ ops : List Nat, (replayToggles ops).length ≤ 2) ∧
    (∀ a b c : Nat, a ≠ c → b ≠ c → toggleCompare c [a, b] = [b, c]) := by
  constructor
  · intro ops
    exact replayToggles_aux ops [] (by simp)
  · intro a b c hac hbc
    have hnc : ([a, b].contains c) = false := by
      simp
      exact ⟨fun h => hac h.symm, fun h => hbc h.symm⟩
    unfold toggleCompare
    rw [hnc]
    rfl

/-- Witness for C10: a replayed sequence of five toggles stays within two
selections, and the toggle of a third id on a full selection evicts the
earlier id. -/
theorem compare_selection_at_most_two_witness :
    (replayToggles [1, 2, 3, 2, 1]).length ≤ 2 ∧ toggleCompare 3 [1, 2] = [2, 3] :=
  ⟨compare_selection_at_most_two.1 [1, 2, 3, 2, 1],
    compare_selection_at_most_two.2 1 2 3 (by decide) (by decide)⟩

end TalentSync
